import Mathlib

/-!
Shallow embedding of the voxel-chunk generation and meshing subsystem of
`src/src/chunk.rs` (repository `render-lock`).

Modelling conventions:

* `usize`/`u32` values are modelled as `Nat`.  The only machine-integer
  arithmetic the claims touch is `current_idx += 1` (a `u32` whose overflow
  is a Rust panic long before any realistic dispatch count) and the index
  offsets of the mesh builder; both are modelled as unbounded `Nat`.
* `f32` values that the claims move around (vertex coordinates, UVs, world
  positions) are modelled as `Rat`.  Every constant involved
  (`±0.5`, `0.125`, `0.1875`, `0.0625`, small integers) is a dyadic rational
  exactly representable in `f32`, and the only arithmetic performed on them
  is addition of an integer, which is exact in `f32` at these magnitudes.
* The noise sampler (`noise::Fbm`) is an external black box.  Its
  contribution to `make_mesh` is, per (x, z) column, the single value
  `(fbm.get([...]) * 16.0 + CHUNK_SIZE/2.0) as usize` computed at
  chunk.rs:202-206; we model that whole column computation as an abstract
  function `stone_height : (Rat × Rat) → Nat → Nat → Nat` of the chunk
  location and the column coordinates, and parametrise `make_mesh` by it.
* `Vec<Vec<Vec<bool>>>` occupancy grids are modelled as total functions
  `Nat → Nat → Nat → Bool` (grid x y z, matching the `[x][y][z]` indexing
  of the source); theorems restrict positions to the in-bounds region the
  source actually indexes.
* `mpsc` channels are modelled by the list of messages currently buffered;
  `HashMap<u32, PendingWork>` is modelled as an association list
  `List (Nat × PendingWork)` (adding an entry puts the fresh key at the front;
  key uniqueness is proved, not assumed).
* A Rust panic (`unwrap` failure) is modelled as `Option.none`.
-/

/-- chunk.rs:142 `const CHUNK_SIZE: usize = 32;` -/
def CHUNK_SIZE : Nat := 32

/-- chunk.rs:144-154: the `Sides` bitflags over `u32`, modelled as a `Nat`
bitmask with the same bit assignments. -/
def Sides.NONE : Nat := 0b00000000

/-- chunk.rs:147 -/
def Sides.TOP : Nat := 0b00000001

/-- chunk.rs:148 -/
def Sides.BOTTOM : Nat := 0b00000010

/-- chunk.rs:149 -/
def Sides.LEFT : Nat := 0b00000100

/-- chunk.rs:150 -/
def Sides.RIGHT : Nat := 0b00001000

/-- chunk.rs:151 -/
def Sides.FORWARD : Nat := 0b00010000

/-- chunk.rs:152 -/
def Sides.BACKWARD : Nat := 0b00100000

/-- bitflags' `contains`: `(self.bits & other.bits) == other.bits`. -/
def Sides.contains (s other : Nat) : Bool := s &&& other == other

/-- cgmath::Vector3<usize>, as used for voxel positions. -/
structure Pos3 where
  x : Nat
  y : Nat
  z : Nat
deriving DecidableEq, Repr

/-- An occupancy grid (`Vec<Vec<Vec<bool>>>` in the source), indexed
`grid x y z` like `height_map[x][y][z]`. -/
def HeightMap : Type := Nat → Nat → Nat → Bool

/-- chunk.rs:230-258 `get_sides`: for a voxel position, or together the face
bits whose neighbouring cell is unoccupied; the BOTTOM face additionally
requires `pos.y > 0` (chunk.rs:241). -/
def get_sides (height_map : HeightMap) (pos : Pos3) : Nat :=
  let sides := Sides.NONE
  let sides := if !(height_map (pos.x - 1) pos.y pos.z) then sides ||| Sides.LEFT else sides
  let sides := if !(height_map (pos.x + 1) pos.y pos.z) then sides ||| Sides.RIGHT else sides
  let sides := if decide (0 < pos.y) && !(height_map pos.x (pos.y - 1) pos.z) then sides ||| Sides.BOTTOM else sides
  let sides := if !(height_map pos.x (pos.y + 1) pos.z) then sides ||| Sides.TOP else sides
  let sides := if !(height_map pos.x pos.y (pos.z - 1)) then sides ||| Sides.BACKWARD else sides
  let sides := if !(height_map pos.x pos.y (pos.z + 1)) then sides ||| Sides.FORWARD else sides
  sides

/-- chunk.rs:199-212: the occupancy grid built by `make_mesh`.  The loops run
`x in 0..CHUNK_SIZE+2`, `z in 0..CHUNK_SIZE+2` and, inside them,
`y in 0..CHUNK_SIZE`; a cell is set to `y < stone_height as usize` exactly when
all three loop bounds hold, and keeps its initial `false` otherwise.
`stone_height` abstracts the whole float computation of chunk.rs:202-206
(noise at the location-offset coordinates scaled by 0.05, times 16.0, plus
`CHUNK_SIZE/2.0`, cast to `usize`). -/
def buildGrid (stone_height : Rat × Rat → Nat → Nat → Nat)
    (chunk_location : Rat × Rat) : HeightMap :=
  fun x y z =>
    if x < CHUNK_SIZE + 2 ∧ z < CHUNK_SIZE + 2 ∧ y < CHUNK_SIZE then
      decide (y < stone_height chunk_location x z)
    else
      false

/-- cgmath::Vector3<f32>, modelled with exact rationals. -/
structure Vec3 where
  x : Rat
  y : Rat
  z : Rat
deriving DecidableEq, Repr

/-- crate::mesh::MeshVertex: position (3 floats), texture coordinate
(2 floats), normal (3 floats). -/
structure MeshVertex where
  position : Vec3
  tex_coords : Rat × Rat
  normal : Vec3
deriving DecidableEq, Repr

/-- chunk.rs MeshReference (declared in a sibling module): chunk id plus the
finished vertex and index buffers. -/
structure MeshReference where
  idx : Nat
  vertex_data : List MeshVertex
  index_data : List Nat
deriving DecidableEq, Repr

/-- chunk.rs:156-165 `CUBE_COORDINATES`. -/
def CUBE_COORDINATES : List Vec3 :=
  [ ⟨-(1/2), -(1/2), 1/2⟩
  , ⟨1/2, -(1/2), 1/2⟩
  , ⟨1/2, -(1/2), -(1/2)⟩
  , ⟨-(1/2), -(1/2), -(1/2)⟩
  , ⟨-(1/2), 1/2, 1/2⟩
  , ⟨1/2, 1/2, 1/2⟩
  , ⟨1/2, 1/2, -(1/2)⟩
  , ⟨-(1/2), 1/2, -(1/2)⟩ ]

/-- chunk.rs:167-172 `UVS` (`1.0 - 0.9375 = 0.0625`, `1.0 - 1.0 = 0.0`). -/
def UVS : List (Rat × Rat) :=
  [ (1/8, 1/16)
  , (3/16, 1/16)
  , (1/8, 0)
  , (3/16, 0) ]

/-- chunk.rs:174 `QUAD_UV_ORDER`. -/
def QUAD_UV_ORDER : List Nat := [3, 2, 0, 1]

/-- chunk.rs:267-274 `SIDE_VERTICES`: per side, the four cube-corner indices
of its quad. -/
def SIDE_VERTICES : List (Nat × List Nat) :=
  [ (Sides.TOP, [7, 6, 5, 4])
  , (Sides.BOTTOM, [0, 1, 2, 3])
  , (Sides.LEFT, [7, 4, 0, 3])
  , (Sides.RIGHT, [5, 6, 2, 1])
  , (Sides.FORWARD, [4, 5, 1, 0])
  , (Sides.BACKWARD, [6, 7, 3, 2]) ]

/-- chunk.rs:260-265 `VoxelMeshBuilder` (`current_cube_pos` is a
`Vector3<u32>`, modelled as `Nat` coordinates). -/
structure VoxelMeshBuilder where
  current_cube_pos : Pos3
  indices : List Nat
  vertices : List MeshVertex
  index_offset : Nat
deriving Repr

/-- chunk.rs:277-284 `VoxelMeshBuilder::new`. -/
def VoxelMeshBuilder.new : VoxelMeshBuilder :=
  { current_cube_pos := ⟨0, 0, 0⟩
  , indices := []
  , vertices := []
  , index_offset := 0 }

/-- chunk.rs:286-291 `set_position` (usize → u32 casts are identities at the
magnitudes the program uses). -/
def VoxelMeshBuilder.set_position (b : VoxelMeshBuilder) (position : Pos3) :
    VoxelMeshBuilder :=
  { b with current_cube_pos := position }

/-- chunk.rs:315-339 `build_quad`: push the four vertices of the quad
(cube corner translated by the cursor, UV chosen by `QUAD_UV_ORDER`, normal
hard-coded to (0,1,0)), then append the six indices
`[3,1,0,3,2,1]` each offset by `index_offset`, then advance `index_offset`
by 4. -/
def VoxelMeshBuilder.build_quad (b : VoxelMeshBuilder) (vertex_idx : List Nat) :
    VoxelMeshBuilder :=
  { b with
    vertices := b.vertices ++
      (vertex_idx.zip QUAD_UV_ORDER).map (fun vu =>
        let c := CUBE_COORDINATES.getD vu.fst ⟨0, 0, 0⟩
        { position := ⟨c.x + (b.current_cube_pos.x : Rat),
                       c.y + (b.current_cube_pos.y : Rat),
                       c.z + (b.current_cube_pos.z : Rat)⟩
        , tex_coords := UVS.getD vu.snd (0, 0)
        , normal := ⟨0, 1, 0⟩ })
  , indices := b.indices ++
      [3 + b.index_offset, 1 + b.index_offset, 0 + b.index_offset,
       3 + b.index_offset, 2 + b.index_offset, 1 + b.index_offset]
  , index_offset := b.index_offset + 4 }

/-- chunk.rs:298-305 `generate_voxel`: for each entry of `SIDE_VERTICES`
whose side bit is contained in `sides`, build one quad. -/
def VoxelMeshBuilder.generate_voxel (b : VoxelMeshBuilder) (sides : Nat) :
    VoxelMeshBuilder :=
  SIDE_VERTICES.foldl
    (fun b sv => if Sides.contains sides sv.fst then b.build_quad sv.snd else b) b

/-- chunk.rs:307-313 `build`. -/
def VoxelMeshBuilder.build (b : VoxelMeshBuilder) (idx : Nat) : MeshReference :=
  { idx := idx
  , vertex_data := b.vertices
  , index_data := b.indices }

/-- chunk.rs:192-228 `make_mesh`, parametrised by the abstract per-column
stone height (see the module comment): build the padded grid, then for each
interior position `x, y, z in 1..CHUNK_SIZE+1` whose cell is occupied, set
the cursor there and emit the voxel's exposed faces; finally build the
`MeshReference` tagged `idx`. -/
def make_mesh (stone_height : Rat × Rat → Nat → Nat → Nat) (idx : Nat)
    (chunk_location : Rat × Rat) : MeshReference :=
  let height_map := buildGrid stone_height chunk_location
  let builder :=
    (List.range' 1 CHUNK_SIZE).foldl (fun b x =>
      (List.range' 1 CHUNK_SIZE).foldl (fun b y =>
        (List.range' 1 CHUNK_SIZE).foldl (fun b z =>
          if height_map x y z then
            (b.set_position ⟨x, y, z⟩).generate_voxel
              (get_sides height_map ⟨x, y, z⟩)
          else b) b) b) VoxelMeshBuilder.new
  builder.build idx

/-- chunk.rs:24-27 `PendingWork`: recorded world position plus the
cancellation-signal sender.  The sender half is not needed by any claim about
the manager's bookkeeping, so only the position is modelled. -/
structure PendingWork where
  position : Vec3
deriving DecidableEq, Repr

/-- The `Transform` component pushed by `update` (ecs::component): a position
and an Euler rotation (three `Rad(f32)` angles). -/
structure Transform where
  position : Vec3
  rotation : Vec3
deriving DecidableEq, Repr

/-- chunk.rs:16-22 `ChunkManager` state relevant to the claims:
`current_idx` (`u32`), the pending map (`HashMap<u32, PendingWork>`, modelled
as an association list with the newest entry first), and the buffered
contents of the result channel (`mpsc::Receiver<MeshReference>`): the head of
`results` is the message `try_recv` would return next. -/
structure ChunkManager where
  current_idx : Nat
  pending : List (Nat × PendingWork)
  results : List MeshReference
deriving Repr

/-- chunk.rs:36-50 `ChunkManager::new`: `current_idx` starts at 1, no pending
work, empty result channel. -/
def ChunkManager.new : ChunkManager :=
  { current_idx := 1, pending := [], results := [] }

/-- The arguments of one `dispatch` call: a world position and a chunk
location (`Vector2<f32>`). -/
structure DispatchArgs where
  position : Vec3
  chunk_location : Rat × Rat
deriving DecidableEq, Repr

/-- chunk.rs:52-71 `ChunkManager::dispatch`: record a `PendingWork` under
`current_idx` in the pending map, then increment `current_idx`.  (The
`ChunkWork` item handed to the worker pool carries the same id; the pool
itself is outside the manager state the claims quantify over.) -/
def ChunkManager.dispatch (m : ChunkManager) (args : DispatchArgs) :
    ChunkManager :=
  { m with
    pending := (m.current_idx, { position := args.position }) :: m.pending
  , current_idx := m.current_idx + 1 }

/-- `HashMap::remove(&key)` on the association-list model: returns the value
stored under `key` together with the map without that entry, or `none` when
no entry has the key. -/
def removeKey : List (Nat × PendingWork) → Nat →
    Option (PendingWork × List (Nat × PendingWork))
  | [], _ => none
  | (k, v) :: rest, key =>
    if k == key then
      some (v, rest)
    else
      match removeKey rest key with
      | none => none
      | some (v', rest') => some (v', (k, v) :: rest')

/-- chunk.rs:73-88 `ChunkManager::update`: one non-blocking `try_recv` on the
result channel; on a message, `self.pending.remove(&chunk.idx).unwrap()`
(panic — `none` — when absent), then push one entity pairing a zero-rotation
`Transform` at the recorded position with the mesh.  The world is modelled as
the list of entities pushed so far. -/
def ChunkManager.update (m : ChunkManager)
    (world : List (Transform × MeshReference)) :
    Option (ChunkManager × List (Transform × MeshReference)) :=
  match m.results with
  | [] => some (m, world)
  | chunk :: rest =>
    match removeKey m.pending chunk.idx with
    | none => none
    | some (pending, pending') =>
      some ({ m with results := rest, pending := pending' },
        world ++ [({ position := pending.position
                   , rotation := ⟨0, 0, 0⟩ }, chunk)])

/-- The possible outcomes of `work.receiver.try_recv()` on the per-job
cancellation channel (`mpsc::Receiver<bool>`). -/
inductive TryRecvResult where
  | ok (value : Bool)
  | errEmpty
  | errDisconnected
deriving DecidableEq, Repr

/-- chunk.rs:118-122, the worker loop's pre-execution cancellation check:
`true` means the `match` hits a `continue` arm and the job is skipped,
`false` means control falls through to `exector.execute(work)`. -/
def ChunkWorker.skipsWork : TryRecvResult → Bool
  | TryRecvResult.ok true => true
  | TryRecvResult.errDisconnected => true
  | _ => false

/-- Run a list of `dispatch` calls left to right. -/
def runDispatches (m : ChunkManager) : List DispatchArgs → ChunkManager
  | [] => m
  | a :: rest => runDispatches (m.dispatch a) rest

/-- The Chunk Ids allocated by a list of `dispatch` calls, in call order
(each call allocates the `current_idx` it saw). -/
def allocIds (m : ChunkManager) : List DispatchArgs → List Nat
  | [] => []
  | a :: rest => m.current_idx :: allocIds (m.dispatch a) rest

/-- Every pending key is below `current_idx`, and the pending keys are
distinct: the bookkeeping invariant preserved by `dispatch`. -/
def ManagerInv (m : ChunkManager) : Prop :=
  (∀ e ∈ m.pending, e.1 < m.current_idx)
    ∧ (m.pending.map Prod.fst).Nodup

/-- A call in a `VoxelMeshBuilder` usage sequence: either `set_position` or
`generate_voxel`. -/
inductive BuilderOp where
  | set_position (p : Pos3)
  | generate_voxel (sides : Nat)
deriving DecidableEq, Repr

/-- Apply a sequence of builder calls left to right. -/
def runOps : VoxelMeshBuilder → List BuilderOp → VoxelMeshBuilder
  | b, [] => b
  | b, BuilderOp.set_position p :: rest => runOps (b.set_position p) rest
  | b, BuilderOp.generate_voxel s :: rest => runOps (b.generate_voxel s) rest

/-- Number of exposed faces in a Side Set: the entries of `SIDE_VERTICES`
whose side bit the set contains — exactly the quads `generate_voxel` emits
for it. -/
def facesIn (sides : Nat) : Nat :=
  SIDE_VERTICES.countP (fun sv => Sides.contains sides sv.fst)

/-- Total number of exposed faces passed to `generate_voxel` across a call
sequence. -/
def totalFaces : List BuilderOp → Nat
  | [] => 0
  | BuilderOp.set_position _ :: rest => totalFaces rest
  | BuilderOp.generate_voxel s :: rest => facesIn s + totalFaces rest

/-- Index pattern of the k-th emitted quad: `[3,1,0,3,2,1]`, each entry
offset by `4 * k`. -/
def quadOf (k : Nat) : List Nat := [3, 1, 0, 3, 2, 1].map (· + 4 * k)

/-- Concatenated index pattern of the first `q` quads. -/
def quadPattern (q : Nat) : List Nat := (List.range q).flatMap quadOf

/-- Builder state reached after emitting `q` quads from a fresh builder:
`index_offset` is `4 * q`, there are `4 * q` vertices, and the index buffer
is the concatenated quad pattern. -/
def BuilderInv (b : VoxelMeshBuilder) (q : Nat) : Prop :=
  b.index_offset = 4 * q ∧ b.vertices.length = 4 * q ∧ b.indices = quadPattern q

theorem quadPattern_succ (q : Nat) :
    quadPattern (q + 1) = quadPattern q ++ quadOf q := by
  simp [quadPattern, List.range_succ]

theorem quadPattern_length (q : Nat) : (quadPattern q).length = 6 * q := by
  induction q with
  | zero => rfl
  | succ q ih => rw [quadPattern_succ]; simp [ih, quadOf]; omega

theorem build_quad_inv {b : VoxelMeshBuilder} {q : Nat} {vi : List Nat}
    (hlen : vi.length = 4) (h : BuilderInv b q) :
    BuilderInv (b.build_quad vi) (q + 1) := by
  obtain ⟨ho, hv, hi⟩ := h
  refine ⟨?_, ?_, ?_⟩
  · simp [VoxelMeshBuilder.build_quad, ho]; omega
  · simp [VoxelMeshBuilder.build_quad, hlen, QUAD_UV_ORDER, hv]; omega
  · simp [VoxelMeshBuilder.build_quad, hi, ho, quadPattern_succ, quadOf]

theorem foldQuads_inv (s : Nat) :
    ∀ (l : List (Nat × List Nat)) (b : VoxelMeshBuilder) (q : Nat),
      (∀ sv ∈ l, sv.snd.length = 4) → BuilderInv b q →
      BuilderInv
        (l.foldl (fun b sv =>
          if Sides.contains s sv.fst then b.build_quad sv.snd else b) b)
        (q + l.countP (fun sv => Sides.contains s sv.fst))
  | [], b, q, _, h => by simpa using h
  | sv :: rest, b, q, hlen, h => by
    rw [List.countP_cons]
    by_cases hc : Sides.contains s sv.fst
    · have step := build_quad_inv (hlen sv (by simp)) h
      have ih := foldQuads_inv s rest (b.build_quad sv.snd) (q + 1)
        (fun e he => hlen e (by simp [he])) step
      simp only [List.foldl_cons, hc, if_pos]
      have harith : q + 1 + rest.countP (fun sv => Sides.contains s sv.fst)
          = q + (rest.countP (fun sv => Sides.contains s sv.fst) + 1) := by
        omega
      rw [harith] at ih
      simpa [hc] using ih
    · have ih := foldQuads_inv s rest b q
        (fun e he => hlen e (by simp [he])) h
      simpa [hc] using ih

theorem generate_voxel_inv {b : VoxelMeshBuilder} {q : Nat} (s : Nat)
    (h : BuilderInv b q) : BuilderInv (b.generate_voxel s) (q + facesIn s) := by
  have := foldQuads_inv s SIDE_VERTICES b q (by decide) h
  simpa [VoxelMeshBuilder.generate_voxel, facesIn] using this

theorem runOps_inv :
    ∀ (ops : List BuilderOp) (b : VoxelMeshBuilder) (q : Nat),
      BuilderInv b q → BuilderInv (runOps b ops) (q + totalFaces ops)
  | [], b, q, h => by simpa [runOps, totalFaces] using h
  | BuilderOp.set_position p :: rest, b, q, h => by
    have hset : BuilderInv (b.set_position p) q := by
      simpa [VoxelMeshBuilder.set_position, BuilderInv] using h
    simpa [runOps, totalFaces] using runOps_inv rest (b.set_position p) q hset
  | BuilderOp.generate_voxel s :: rest, b, q, h => by
    have := runOps_inv rest (b.generate_voxel s) (q + facesIn s)
      (generate_voxel_inv s h)
    simp only [runOps, totalFaces]
    have harith : q + facesIn s + totalFaces rest
        = q + (facesIn s + totalFaces rest) := by omega
    rwa [harith] at this

theorem new_inv : BuilderInv VoxelMeshBuilder.new 0 :=
  ⟨rfl, rfl, rfl⟩

theorem mem_quadOf {i k : Nat} (h : i ∈ quadOf k) : 4 * k ≤ i ∧ i < 4 * k + 4 := by
  simp only [quadOf, List.mem_map, List.mem_cons, List.not_mem_nil, or_false] at h
  obtain ⟨a, ha, rfl⟩ := h
  rcases ha with rfl | rfl | rfl | rfl | rfl | rfl <;> omega

theorem mem_quadPattern {i q : Nat} (h : i ∈ quadPattern q) : i < 4 * q := by
  simp only [quadPattern, List.mem_flatMap, List.mem_range] at h
  obtain ⟨k, hk, hmem⟩ := h
  have := mem_quadOf hmem
  omega

theorem quadOf_disjoint {j k i : Nat} (hne : j ≠ k) (hj : i ∈ quadOf j) :
    i ∉ quadOf k := by
  intro hk
  have h1 := mem_quadOf hj
  have h2 := mem_quadOf hk
  omega

/-- Claim C3: across any sequence of `set_position`/`generate_voxel` calls on
a fresh `VoxelMeshBuilder`, the built mesh has exactly `4 × (number of
exposed faces passed to `generate_voxel` across the sequence)` vertices and
`6 ×` that number of indices. -/
theorem C3_quad_count_invariant (ops : List BuilderOp) (idx : Nat) :
    ((runOps VoxelMeshBuilder.new ops).build idx).vertex_data.length
        = 4 * totalFaces ops
      ∧ ((runOps VoxelMeshBuilder.new ops).build idx).index_data.length
        = 6 * totalFaces ops := by
  obtain ⟨-, hv, hi⟩ := runOps_inv ops VoxelMeshBuilder.new 0 new_inv
  refine ⟨?_, ?_⟩
  · simpa [VoxelMeshBuilder.build] using hv
  · simp [VoxelMeshBuilder.build, hi, quadPattern_length]

/-- Claim C4: the index buffer produced by any call sequence on a fresh
builder is the concatenation, over the emitted quads `k = 0, 1, ...`, of
`[3,1,0,3,2,1]` with each entry offset by `4 * k` (that is `quadPattern`
applied to the quad count); every index is strictly below the vertex count,
and the index ranges of distinct quads never overlap. -/
theorem C4_index_pattern (ops : List BuilderOp) :
    (runOps VoxelMeshBuilder.new ops).indices
        = quadPattern (totalFaces ops)
      ∧ (∀ i ∈ (runOps VoxelMeshBuilder.new ops).indices,
          i < (runOps VoxelMeshBuilder.new ops).vertices.length)
      ∧ (∀ j k i, j ≠ k → i ∈ quadOf j → i ∉ quadOf k) := by
  obtain ⟨-, hv, hi⟩ := runOps_inv ops VoxelMeshBuilder.new 0 new_inv
  rw [Nat.zero_add] at hv hi
  refine ⟨hi, ?_, fun j k i hne hj => quadOf_disjoint hne hj⟩
  intro i hmem
  rw [hi] at hmem
  rw [hv]
  exact mem_quadPattern hmem

theorem C4_index_pattern_witness :
    (runOps VoxelMeshBuilder.new [BuilderOp.generate_voxel 63]).indices
        = quadPattern (totalFaces [BuilderOp.generate_voxel 63])
      ∧ 7 < (runOps VoxelMeshBuilder.new [BuilderOp.generate_voxel 63]).vertices.length
      ∧ 5 ∉ quadOf 2 :=
  ⟨(C4_index_pattern [BuilderOp.generate_voxel 63]).1,
   (C4_index_pattern [BuilderOp.generate_voxel 63]).2.1 7 (by decide),
   (C4_index_pattern [BuilderOp.generate_voxel 63]).2.2 1 2 5 (by decide) (by decide)⟩

/-- Claim C2: for every occupancy grid and interior voxel position,
`get_sides` contains exactly the face bits whose neighbouring cell is
unoccupied, with the BOTTOM face additionally requiring the voxel not to sit
in the grid's lowest layer (`y = 0`); consequently a voxel with all six
neighbours occupied yields the empty Side Set, and a voxel with all six
neighbours unoccupied yields all six sides (the bottom special case being
vacuous away from `y = 0`). -/
theorem C2_get_sides_exposure (g : HeightMap) (p : Pos3)
    (hx1 : 1 ≤ p.x) (hx2 : p.x ≤ CHUNK_SIZE)
    (hy1 : 1 ≤ p.y) (hy2 : p.y ≤ CHUNK_SIZE)
    (hz1 : 1 ≤ p.z) (hz2 : p.z ≤ CHUNK_SIZE) :
    (Sides.contains (get_sides g p) Sides.LEFT = !g (p.x - 1) p.y p.z
     ∧ Sides.contains (get_sides g p) Sides.RIGHT = !g (p.x + 1) p.y p.z
     ∧ Sides.contains (get_sides g p) Sides.BOTTOM
         = (!(p.y == 0) && !g p.x (p.y - 1) p.z)
     ∧ Sides.contains (get_sides g p) Sides.TOP = !g p.x (p.y + 1) p.z
     ∧ Sides.contains (get_sides g p) Sides.BACKWARD = !g p.x p.y (p.z - 1)
     ∧ Sides.contains (get_sides g p) Sides.FORWARD = !g p.x p.y (p.z + 1))
    ∧ (g (p.x - 1) p.y p.z = true → g (p.x + 1) p.y p.z = true →
       g p.x (p.y - 1) p.z = true → g p.x (p.y + 1) p.z = true →
       g p.x p.y (p.z - 1) = true → g p.x p.y (p.z + 1) = true →
       get_sides g p = Sides.NONE)
    ∧ (g (p.x - 1) p.y p.z = false → g (p.x + 1) p.y p.z = false →
       g p.x (p.y - 1) p.z = false → g p.x (p.y + 1) p.z = false →
       g p.x p.y (p.z - 1) = false → g p.x p.y (p.z + 1) = false →
       get_sides g p
         = (Sides.TOP ||| Sides.BOTTOM ||| Sides.LEFT ||| Sides.RIGHT |||
            Sides.FORWARD ||| Sides.BACKWARD)) := by
  obtain ⟨x, y, z⟩ := p
  simp only at hx1 hx2 hy1 hy2 hz1 hz2
  have hy0 : decide (0 < y) = true := by simpa using hy1
  have hyb : (y == 0) = false := by
    simp only [beq_eq_false_iff_ne, ne_eq]
    omega
  simp only [get_sides, hy0, hyb, Bool.true_and, Bool.not_false]
  cases h1 : g (x - 1) y z <;> cases h2 : g (x + 1) y z <;>
    cases h3 : g x (y - 1) z <;> cases h4 : g x (y + 1) z <;>
    cases h5 : g x y (z - 1) <;> cases h6 : g x y (z + 1) <;>
    simp_all <;> decide

theorem C2_get_sides_exposure_witness :
    get_sides (fun _ _ _ => false) ⟨1, 1, 1⟩
        = (Sides.TOP ||| Sides.BOTTOM ||| Sides.LEFT ||| Sides.RIGHT |||
           Sides.FORWARD ||| Sides.BACKWARD)
      ∧ Sides.contains (get_sides (fun _ _ _ => false) ⟨1, 1, 1⟩) Sides.TOP
        = true :=
  ⟨(C2_get_sides_exposure (fun _ _ _ => false) ⟨1, 1, 1⟩ (by decide) (by decide)
      (by decide) (by decide) (by decide) (by decide)).2.2
      rfl rfl rfl rfl rfl rfl,
   (C2_get_sides_exposure (fun _ _ _ => false) ⟨1, 1, 1⟩ (by decide) (by decide)
      (by decide) (by decide) (by decide) (by decide)).1.2.2.2.1⟩

/-- Claim C1 as stated is false at the padding layer `y = CHUNK_SIZE`: with a
column stone height of 33, the cell at column (5,5) and height 32 lies inside
the (N+2)^3 grid and satisfies `y < stone height`, yet the grid built by
`make_mesh` leaves it unoccupied, because the fill loop only writes heights
`y in 0..CHUNK_SIZE`. -/
theorem C1_counterexample :
    ¬ (buildGrid (fun _ _ _ => 33) (0, 0) 5 32 5 = true ↔ 32 < 33) := by
  decide

/-- Claim C1 amended: in the grid built by `make_mesh`, a cell at column
(x,z) and height y is occupied iff `y < CHUNK_SIZE` and y is strictly less
than the column's stone height; for cells below the fill-loop bound
`CHUNK_SIZE` this is the claim's iff verbatim, while the top two layers of
the padded grid stay unoccupied whatever the stone height is. -/
theorem C1_occupancy (sh : Rat × Rat → Nat → Nat → Nat) (loc : Rat × Rat)
    (x y z : Nat) (hx : x < CHUNK_SIZE + 2) (hy : y < CHUNK_SIZE + 2)
    (hz : z < CHUNK_SIZE + 2) :
    buildGrid sh loc x y z
      = (decide (y < CHUNK_SIZE) && decide (y < sh loc x z)) := by
  by_cases hcs : y < CHUNK_SIZE <;> simp [buildGrid, hx, hz, hcs]

theorem C1_occupancy_witness :
    buildGrid (fun _ _ _ => 33) (0, 0) 5 31 5
      = (decide (31 < CHUNK_SIZE)
          && decide (31 < (fun _ _ _ => 33) ((0 : Rat), (0 : Rat)) 5 5)) :=
  C1_occupancy (fun _ _ _ => 33) (0, 0) 5 31 5 (by decide) (by decide)
    (by decide)

/-- Claim C10: in every grid built by `make_mesh`, every cell at height
`y ≥ CHUNK_SIZE` (the top two layers of the padded grid) is unoccupied
regardless of the computed stone height, because the fill loop only writes
`y in 0..CHUNK_SIZE`; consequently, in every column of the topmost classified
layer `y = CHUNK_SIZE`, the Side Set computed by `get_sides` contains TOP, so
an occupied voxel there always has its TOP face emitted. -/
theorem C10_top_layers (sh : Rat × Rat → Nat → Nat → Nat) (loc : Rat × Rat) :
    (∀ x y z, CHUNK_SIZE ≤ y → buildGrid sh loc x y z = false)
    ∧ (∀ x z,
        Sides.contains
          (get_sides (buildGrid sh loc) ⟨x, CHUNK_SIZE, z⟩) Sides.TOP
          = true) := by
  have hhigh : ∀ x y z, CHUNK_SIZE ≤ y → buildGrid sh loc x y z = false := by
    intro x y z hy
    simp only [buildGrid]
    rw [if_neg]
    rintro ⟨-, -, h3⟩
    omega
  refine ⟨hhigh, ?_⟩
  intro x z
  have hn : buildGrid sh loc x (CHUNK_SIZE + 1) z = false :=
    hhigh x (CHUNK_SIZE + 1) z (by omega)
  simp only [get_sides, hn]
  cases h1 : buildGrid sh loc (x - 1) CHUNK_SIZE z <;>
    cases h2 : buildGrid sh loc (x + 1) CHUNK_SIZE z <;>
    cases h3 : buildGrid sh loc x (CHUNK_SIZE - 1) z <;>
    cases h4 : buildGrid sh loc x CHUNK_SIZE (z - 1) <;>
    cases h5 : buildGrid sh loc x CHUNK_SIZE (z + 1) <;>
    simp_all <;> decide

theorem C10_top_layers_witness :
    buildGrid (fun _ _ _ => 40) (0, 0) 5 CHUNK_SIZE 5 = false
      ∧ Sides.contains
          (get_sides (buildGrid (fun _ _ _ => 40) (0, 0)) ⟨5, CHUNK_SIZE, 5⟩)
          Sides.TOP = true :=
  ⟨(C10_top_layers (fun _ _ _ => 40) (0, 0)).1 5 CHUNK_SIZE 5 (Nat.le_refl _),
   (C10_top_layers (fun _ _ _ => 40) (0, 0)).2 5 5⟩

/-- Claim C9: `make_mesh` is deterministic — for one stone-height sampler and
equal chunk ids and chunk coordinates, two invocations build equal occupancy
grids and equal Mesh References (same vertex data and index data); the
embedding is a pure function of exactly these inputs, with no other state. -/
theorem C9_determinism (sh : Rat × Rat → Nat → Nat → Nat)
    (idx1 idx2 : Nat) (loc1 loc2 : Rat × Rat)
    (hidx : idx1 = idx2) (hloc : loc1 = loc2) :
    buildGrid sh loc1 = buildGrid sh loc2
      ∧ make_mesh sh idx1 loc1 = make_mesh sh idx2 loc2 := by
  subst hidx
  subst hloc
  exact ⟨rfl, rfl⟩

theorem C9_determinism_witness :
    buildGrid (fun _ x z => x + z) (1, 2) = buildGrid (fun _ x z => x + z) (1, 2)
      ∧ make_mesh (fun _ x z => x + z) 7 (1, 2)
        = make_mesh (fun _ x z => x + z) 7 (1, 2) :=
  C9_determinism (fun _ x z => x + z) 7 7 (1, 2) (1, 2) rfl rfl

/-- Claim C5 as stated is false: when the pre-execution cancellation check
observes a disconnected channel (`Err(TryRecvError::Disconnected)`), the
worker's match at chunk.rs:118-122 hits a `continue` arm, so the job is
skipped — not executed. -/
theorem C5_counterexample :
    ¬ (ChunkWorker.skipsWork TryRecvResult.errDisconnected = false) := by
  decide

/-- Claim C5 amended: the worker's pre-execution cancellation check treats a
disconnected channel like a received cancellation signal (fail closed): it
skips the job both on `Ok(true)` and on `Err(Disconnected)`, and proceeds to
execute only when the channel is empty or delivered `false`. -/
theorem C5_cancellation_check :
    ChunkWorker.skipsWork TryRecvResult.errDisconnected = true
      ∧ ChunkWorker.skipsWork (TryRecvResult.ok true) = true
      ∧ ChunkWorker.skipsWork TryRecvResult.errEmpty = false
      ∧ ChunkWorker.skipsWork (TryRecvResult.ok false) = false := by
  decide

theorem lookup_eq_none_of_no_key (key : Nat) :
    ∀ l : List (Nat × PendingWork), (∀ e ∈ l, e.1 ≠ key) →
      l.lookup key = none
  | [], _ => rfl
  | (k, v) :: rest, h => by
    have hk : (key == k) = false :=
      beq_eq_false_iff_ne.mpr (Ne.symm (h (k, v) (by simp)))
    simp only [List.lookup, hk]
    exact lookup_eq_none_of_no_key key rest (fun e he => h e (by simp [he]))

theorem removeKey_eq_none (key : Nat) :
    ∀ l : List (Nat × PendingWork), (∀ e ∈ l, e.1 ≠ key) →
      removeKey l key = none
  | [], _ => rfl
  | (k, v) :: rest, h => by
    have hk : (k == key) = false :=
      beq_eq_false_iff_ne.mpr (h (k, v) (by simp))
    rw [removeKey, removeKey_eq_none key rest (fun e he => h e (by simp [he]))]
    simp [hk]

theorem removeKey_of_lookup (key : Nat) :
    ∀ (l : List (Nat × PendingWork)) (v : PendingWork),
      (l.map Prod.fst).Nodup → l.lookup key = some v →
      ∃ l', removeKey l key = some (v, l')
        ∧ l'.lookup key = none
        ∧ l'.length + 1 = l.length
  | [], v, _, hl => by simp [List.lookup] at hl
  | (k, w) :: rest, v, hnd, hl => by
    simp only [List.map_cons, List.nodup_cons] at hnd
    by_cases hk : k = key
    · subst hk
      have hbeq : (k == k) = true := beq_self_eq_true k
      simp only [List.lookup, hbeq, Option.some.injEq] at hl
      subst hl
      refine ⟨rest, by simp [removeKey], ?_, by simp⟩
      exact lookup_eq_none_of_no_key k rest
        (fun e he hke => hnd.1 (hke ▸ List.mem_map_of_mem Prod.fst he))
    · have hk1 : (key == k) = false := beq_eq_false_iff_ne.mpr (Ne.symm hk)
      have hk2 : (k == key) = false := beq_eq_false_iff_ne.mpr hk
      simp only [List.lookup, hk1] at hl
      obtain ⟨l', hrm, hlk, hlen⟩ := removeKey_of_lookup key rest v hnd.2 hl
      refine ⟨(k, w) :: l', ?_, ?_, by simp [← hlen]⟩
      · rw [removeKey, hrm]
        simp [hk2]
      · simp only [List.lookup, hk1]
        exact hlk

/-- Claim C6: when `update` polls a completed Mesh Reference, an id with no
matching Pending Work Entry makes the program panic (`none`); with a matching
entry, that entry is removed from the pending map and exactly one world
entity pairing a zero-rotation Transform at the recorded position with the
Mesh Reference is appended. -/
theorem C6_update_result_handling (m : ChunkManager)
    (world : List (Transform × MeshReference)) (chunk : MeshReference)
    (rest : List MeshReference) (hq : m.results = chunk :: rest) :
    ((∀ e ∈ m.pending, e.1 ≠ chunk.idx) → m.update world = none)
    ∧ (∀ p, (m.pending.map Prod.fst).Nodup →
        m.pending.lookup chunk.idx = some p →
        ∃ pending',
          m.update world
              = some ({ current_idx := m.current_idx
                      , pending := pending'
                      , results := rest },
                  world ++ [({ position := p.position
                             , rotation := ⟨0, 0, 0⟩ }, chunk)])
            ∧ pending'.lookup chunk.idx = none
            ∧ pending'.length + 1 = m.pending.length) := by
  constructor
  · intro hno
    simp [ChunkManager.update, hq,
      removeKey_eq_none chunk.idx m.pending hno]
  · intro p hnd hl
    obtain ⟨l', hrm, hlk, hlen⟩ :=
      removeKey_of_lookup chunk.idx m.pending p hnd hl
    exact ⟨l', by simp [ChunkManager.update, hq, hrm], hlk, hlen⟩

theorem C6_update_result_handling_witness :
    ∃ pending',
      ChunkManager.update
          { current_idx := 2
          , pending := [(1, { position := ⟨7, 8, 9⟩ })]
          , results := [{ idx := 1, vertex_data := [], index_data := [] }] }
          []
          = some ({ current_idx := 2, pending := pending', results := [] },
              [] ++ [({ position := ⟨7, 8, 9⟩, rotation := ⟨0, 0, 0⟩ },
                { idx := 1, vertex_data := [], index_data := [] })])
        ∧ pending'.lookup 1 = none
        ∧ pending'.length + 1 = 1 :=
  (C6_update_result_handling
      { current_idx := 2
      , pending := [(1, { position := ⟨7, 8, 9⟩ })]
      , results := [{ idx := 1, vertex_data := [], index_data := [] }] }
      [] { idx := 1, vertex_data := [], index_data := [] } [] rfl).2
    { position := ⟨7, 8, 9⟩ } (by simp) rfl

theorem allocIds_eq :
    ∀ (args : List DispatchArgs) (m : ChunkManager),
      allocIds m args = List.range' m.current_idx args.length
  | [], _ => rfl
  | a :: rest, m => by
    simp only [allocIds, allocIds_eq rest (m.dispatch a)]
    rfl

theorem dispatch_inv {m : ChunkManager} (a : DispatchArgs)
    (h : ManagerInv m) : ManagerInv (m.dispatch a) := by
  obtain ⟨hb, hnd⟩ := h
  constructor
  · intro e he
    simp only [ChunkManager.dispatch, List.mem_cons] at he
    rcases he with rfl | he
    · exact Nat.lt_succ_self _
    · exact Nat.lt_trans (hb e he) (Nat.lt_succ_self _)
  · simp only [ChunkManager.dispatch, List.map_cons, List.nodup_cons]
    exact ⟨fun hmem => by
      obtain ⟨e, he, hfst⟩ := List.mem_map.mp hmem
      exact absurd (hfst ▸ hb e he) (Nat.lt_irrefl _), hnd⟩

theorem runDispatches_inv :
    ∀ (args : List DispatchArgs) (m : ChunkManager),
      ManagerInv m → ManagerInv (runDispatches m args)
  | [], _, h => h
  | a :: rest, m, h =>
    runDispatches_inv rest (m.dispatch a) (dispatch_inv a h)

theorem new_manager_inv : ManagerInv ChunkManager.new :=
  ⟨fun e he => by simp [ChunkManager.new] at he, by simp [ChunkManager.new]⟩

/-- Claim C7: across any sequence of `dispatch` calls on a fresh
`ChunkManager`, the allocated Chunk Ids are pairwise strictly increasing (in
particular pairwise distinct), one id per dispatch; each dispatch inserts
exactly one Pending Work Entry under its id; and after any prefix of the
sequence the pending map's keys are distinct — ids are never reused. -/
theorem C7_id_uniqueness (args : List DispatchArgs) :
    (allocIds ChunkManager.new args).Pairwise (· < ·)
    ∧ (allocIds ChunkManager.new args).length = args.length
    ∧ (∀ pre a suf, args = pre ++ a :: suf →
        ((runDispatches ChunkManager.new pre).dispatch a).pending.lookup
            (runDispatches ChunkManager.new pre).current_idx
            = some { position := a.position }
          ∧ ((runDispatches ChunkManager.new pre).dispatch a).pending.length
            = (runDispatches ChunkManager.new pre).pending.length + 1)
    ∧ (∀ pre suf, args = pre ++ suf →
        ((runDispatches ChunkManager.new pre).pending.map Prod.fst).Nodup) := by
  refine ⟨?_, ?_, ?_, ?_⟩
  · rw [allocIds_eq]
    exact List.pairwise_lt_range' ..
  · rw [allocIds_eq]
    exact List.length_range' ..
  · intro pre a suf _
    constructor
    · simp [ChunkManager.dispatch, List.lookup]
    · simp [ChunkManager.dispatch]
  · intro pre suf _
    exact (runDispatches_inv pre ChunkManager.new new_manager_inv).2

theorem C7_id_uniqueness_witness :
    (allocIds ChunkManager.new
        [{ position := ⟨0, 0, 0⟩, chunk_location := (0, 0) },
         { position := ⟨4, 5, 6⟩, chunk_location := (2, 3) }]).Pairwise (· < ·)
      ∧ ((runDispatches ChunkManager.new
            [{ position := ⟨0, 0, 0⟩, chunk_location := (0, 0) }]).dispatch
            { position := ⟨4, 5, 6⟩, chunk_location := (2, 3) }).pending.lookup
          (runDispatches ChunkManager.new
            [{ position := ⟨0, 0, 0⟩, chunk_location := (0, 0) }]).current_idx
          = some { position := ⟨4, 5, 6⟩ }
      ∧ ((runDispatches ChunkManager.new
            [{ position := ⟨0, 0, 0⟩, chunk_location := (0, 0) },
             { position := ⟨4, 5, 6⟩, chunk_location := (2, 3) }]).pending.map
            Prod.fst).Nodup :=
  ⟨(C7_id_uniqueness
      [{ position := ⟨0, 0, 0⟩, chunk_location := (0, 0) },
       { position := ⟨4, 5, 6⟩, chunk_location := (2, 3) }]).1,
   ((C7_id_uniqueness
      [{ position := ⟨0, 0, 0⟩, chunk_location := (0, 0) },
       { position := ⟨4, 5, 6⟩, chunk_location := (2, 3) }]).2.2.1
      [{ position := ⟨0, 0, 0⟩, chunk_location := (0, 0) }]
      { position := ⟨4, 5, 6⟩, chunk_location := (2, 3) } [] rfl).1,
   (C7_id_uniqueness
      [{ position := ⟨0, 0, 0⟩, chunk_location := (0, 0) },
       { position := ⟨4, 5, 6⟩, chunk_location := (2, 3) }]).2.2.2
      [{ position := ⟨0, 0, 0⟩, chunk_location := (0, 0) },
       { position := ⟨4, 5, 6⟩, chunk_location := (2, 3) }] [] (by simp)⟩

theorem removeKey_length (key : Nat) :
    ∀ (l : List (Nat × PendingWork)) (v : PendingWork)
      (l' : List (Nat × PendingWork)),
      removeKey l key = some (v, l') → l'.length + 1 = l.length
  | [], v, l', h => by simp [removeKey] at h
  | (k, w) :: rest, v, l', h => by
    rw [removeKey] at h
    by_cases hk : (k == key) = true
    · simp only [hk, if_true, Option.some.injEq, Prod.mk.injEq] at h
      rw [← h.2]
      simp
    · simp only [hk, Bool.false_eq_true, if_false] at h
      cases hr : removeKey rest key with
      | none => rw [hr] at h; exact absurd h (by simp)
      | some pr =>
        obtain ⟨v', rest'⟩ := pr
        rw [hr] at h
        simp only [Option.some.injEq, Prod.mk.injEq] at h
        have ih := removeKey_length key rest v' rest' hr
        rw [← h.2]
        simp [← ih]

/-- Claim C8: a single `update` call removes at most one Pending Work Entry
and appends at most one world entity, however many completed results are
buffered on the result channel: either nothing changes (empty channel), or
exactly one pending entry is removed and exactly one entity appended. -/
theorem C8_drain_bound (m : ChunkManager)
    (world : List (Transform × MeshReference)) (m' : ChunkManager)
    (world' : List (Transform × MeshReference))
    (h : m.update world = some (m', world')) :
    (m'.pending = m.pending ∧ world' = world)
    ∨ (m'.pending.length + 1 = m.pending.length
        ∧ ∃ e, world' = world ++ [e]) := by
  cases hq : m.results with
  | nil =>
    simp only [ChunkManager.update, hq, Option.some.injEq, Prod.mk.injEq] at h
    left
    rw [← h.1, ← h.2]
    exact ⟨rfl, rfl⟩
  | cons chunk rest =>
    simp only [ChunkManager.update, hq] at h
    cases hr : removeKey m.pending chunk.idx with
    | none => rw [hr] at h; exact absurd h (by simp)
    | some pr =>
      obtain ⟨p, l'⟩ := pr
      rw [hr] at h
      simp only [Option.some.injEq, Prod.mk.injEq] at h
      right
      refine ⟨?_, ⟨_, h.2.symm⟩⟩
      rw [← h.1]
      exact removeKey_length chunk.idx m.pending p l' hr

theorem C8_drain_bound_witness :
    (([] : List (Nat × PendingWork))
          = [(1, ({ position := ⟨0, 0, 0⟩ } : PendingWork))]
        ∧ [(({ position := ⟨0, 0, 0⟩, rotation := ⟨0, 0, 0⟩ } : Transform),
            ({ idx := 1, vertex_data := [], index_data := [] } : MeshReference))]
          = ([] : List (Transform × MeshReference)))
    ∨ (([] : List (Nat × PendingWork)).length + 1
          = [(1, ({ position := ⟨0, 0, 0⟩ } : PendingWork))].length
        ∧ ∃ e, [(({ position := ⟨0, 0, 0⟩, rotation := ⟨0, 0, 0⟩ } : Transform),
                ({ idx := 1, vertex_data := [], index_data := [] } : MeshReference))]
            = [] ++ [e]) :=
  C8_drain_bound
    { current_idx := 2
    , pending := [(1, { position := ⟨0, 0, 0⟩ })]
    , results := [{ idx := 1, vertex_data := [], index_data := [] },
                  { idx := 5, vertex_data := [], index_data := [] }] }
    []
    { current_idx := 2, pending := []
    , results := [{ idx := 5, vertex_data := [], index_data := [] }] }
    [({ position := ⟨0, 0, 0⟩, rotation := ⟨0, 0, 0⟩ },
      { idx := 1, vertex_data := [], index_data := [] })]
    rfl
